import Mathlib

/-!
Shallow embedding of the apportionment verification script.

The script reconciles tax apportionment totals computed from operational
source collections against general-ledger fund totals, per tenant.  Monetary
amounts are modelled as exact rationals, JS objects used as string-keyed
accumulator maps are modelled as functions `String → Option ℚ` (a missing key
is `none`; `obj[k] || 0` is `getT`), and the MongoDB aggregation results that
the script consumes are modelled as the lists of grouped rows the pipelines
return.
-/

set_option autoImplicit false

namespace Apportionment

/-! ### String-keyed totals maps (JS object accumulators) -/

/-- A JS object used as a map from string keys to numbers. -/
def Totals : Type := String → Option ℚ

/-- The empty object. -/
def emptyTotals : Totals := fun _ => none

/-- `m[k] || 0`: read a key, defaulting a missing entry to 0. -/
def getT (m : Totals) (k : String) : ℚ := (m k).getD 0

/-- `m[k] = (m[k] || 0) + v`: accumulate into a key. -/
def addT (m : Totals) (k : String) (v : ℚ) : Totals :=
  fun t => if t = k then some (getT m k + v) else m t

/-- `m[k] = v`: assign a key. -/
def setT (m : Totals) (k : String) (v : ℚ) : Totals :=
  fun t => if t = k then some v else m t

/-- JS object spread `\x7b...a, ...b\x7d`: keys of `b` override keys of `a`. -/
def spread (a b : Totals) : Totals :=
  fun t => match b t with
    | some v => some v
    | none => a t

/-! ### compareValues -/

/-- `Math.round(x * 100) / 100`: round to two decimals, halves toward plus
infinity, as the script does for reporting. -/
def round2 (x : ℚ) : ℚ := (⌊x * 100 + 1/2⌋ : ℚ) / 100

/-- The per-category comparison record produced by `compareValues`. -/
structure ComparisonResult where
  apportionment : ℚ
  gl : ℚ
  diff : ℚ
  isMatch : Bool
  deriving DecidableEq, Repr

/-- `compareValues(apportionment, gl, tolerance)`: the match decision uses the
unrounded absolute difference; the reported fields are rounded. -/
def compareValues (apportionment gl tolerance : ℚ) : ComparisonResult :=
  let diff := |apportionment - gl|
  { apportionment := round2 apportionment
    gl := round2 gl
    diff := round2 diff
    isMatch := decide (diff ≤ tolerance) }

/-! ### Tax year classification (July 1 fiscal boundary) -/

/-- The month and year of a reference date (JS `getMonth() + 1` /
`getFullYear()`). -/
structure SDate where
  year : Int
  month : Int
  deriving DecidableEq, Repr

/-- The four tax-year integers returned by `getTaxYearStatus`. -/
structure TaxYearStatus where
  nextTax : Int
  currentTax : Int
  priorTax : Int
  backTax : Int
  deriving DecidableEq, Repr

/-- `getTaxYearStatus(date)`: July 1 is the cutoff for the current tax year. -/
def getTaxYearStatus (d : SDate) : TaxYearStatus :=
  let currentTaxYearStart : Int := if d.month ≤ 6 then d.year - 1 else d.year
  { nextTax := currentTaxYearStart + 1
    currentTax := currentTaxYearStart
    priorTax := currentTaxYearStart - 1
    backTax := currentTaxYearStart - 2 }

/-! ### Tax totals from the source collections (`computeTaxTotals`) -/

/-- One grouped row of either tax aggregation pipeline (and also one entry of
the merged map, which has the same shape). -/
structure TaxRec where
  taxYear : Int
  schoolDistrict : Int
  taxAmt : ℚ
  penaltyAmt : ℚ
  totalFees : ℚ
  total : ℚ
  deriving DecidableEq, Repr

/-- The `taxYear-schoolDistrict` merge key. -/
def keyOf (r : TaxRec) : Int × Int := (r.taxYear, r.schoolDistrict)

/-- Accumulate a raw row into an existing merged entry with the same key. -/
def addAmounts (m r : TaxRec) : TaxRec :=
  { m with
    taxAmt := m.taxAmt + r.taxAmt
    penaltyAmt := m.penaltyAmt + r.penaltyAmt
    totalFees := m.totalFees + r.totalFees
    total := m.total + r.total }

/-- One step of the merge loop: update the entry with the row's key if
present, otherwise append a new entry (JS object insertion order). -/
def mergeInto : List TaxRec → TaxRec → List TaxRec
  | [], r => [r]
  | m :: ms, r =>
      if keyOf m = keyOf r then addAmounts m r :: ms
      else m :: mergeInto ms r

/-- The merge loop over `[...resultsA, ...resultsB]`. -/
def mergeRecords (rs : List TaxRec) : List TaxRec :=
  rs.foldl mergeInto []

/-- The current/prior/back bucket of one merged record. -/
inductive Cat where
  | current | prior | back
  deriving DecidableEq, Repr

/-- The nested classification conditional of `computeTaxTotals`. -/
def yearCategory (tys : TaxYearStatus) (noPriorTax : Bool) (taxYear : Int) : Cat :=
  if taxYear = tys.currentTax then Cat.current
  else if noPriorTax then Cat.back
  else if taxYear = tys.priorTax then Cat.prior
  else Cat.back

/-- GL fund key of a bucket. -/
def glKeyOfCat : Cat → String
  | Cat.current => "Current Tax"
  | Cat.prior => "Prior Tax"
  | Cat.back => "Back Tax"

/-- Apportionment base-tax tag of a bucket. -/
def taxTagOfCat : Cat → String
  | Cat.current => "CTax"
  | Cat.prior => "PTax"
  | Cat.back => "BTax"

/-- Apportionment penalty tag of a bucket. -/
def penTagOfCat : Cat → String
  | Cat.current => "CTaxPen"
  | Cat.prior => "PTaxPen"
  | Cat.back => "BTaxPen"

/-- Apportionment fee tag of a bucket. -/
def feeTagOfCat : Cat → String
  | Cat.current => "CTaxFee"
  | Cat.prior => "PTaxFee"
  | Cat.back => "BTaxFee"

/-- One iteration of the classification loop: route the record's `total` into
the GL fund key of its bucket and its three amounts into the bucket's
apportionment tags, by running-sum accumulation. -/
def classifyStep (tys : TaxYearStatus) (noPriorTax : Bool)
    (acc : Totals × Totals) (r : TaxRec) : Totals × Totals :=
  let cat := yearCategory tys noPriorTax r.taxYear
  let gl := addT acc.1 (glKeyOfCat cat) r.total
  let a1 := addT acc.2 (taxTagOfCat cat) r.taxAmt
  let a2 := addT a1 (penTagOfCat cat) r.penaltyAmt
  let a3 := addT a2 (feeTagOfCat cat) r.totalFees
  (gl, a3)

/-- The result object of `computeTaxTotals`. -/
structure TaxTotals where
  glTotals : Totals
  apptTotals : Totals

/-- `computeTaxTotals(db, fromDate, toDate, noPriorTax)`, with the two
aggregation pipelines' grouped rows supplied as inputs and the window's end
date supplied as `dd` (the script derives `taxYearStatus` from it). -/
def computeTaxTotals (dd : SDate) (noPriorTax : Bool)
    (resultsA resultsB : List TaxRec) : TaxTotals :=
  let tys := getTaxYearStatus dd
  let merged := mergeRecords (resultsA ++ resultsB)
  let acc := merged.foldl (classifyStep tys noPriorTax) (emptyTotals, emptyTotals)
  ⟨acc.1, acc.2⟩

/-! ### Misc totals (`computeMiscTotals`) -/

/-- One row of the misc detail pipeline after the `miscunitcodes` lookup:
the looked-up `unitCodeNumber` (none when the lookup found nothing) and the
summed amount for the unit. -/
structure MiscDetail where
  unitCodeNumber : Option Nat
  totalAmount : ℚ
  deriving DecidableEq, Repr

/-- The `unitCodeToTag` lookup table. -/
def unitCodeToTag (n : Nat) : Option String :=
  if n = 1 then some "ABT"
  else if n = 2 then some "MV"
  else if n = 3 then some "MVTS"
  else if n = 4 then some "JT4MILL"
  else if n = 5 then some "INTEREST"
  else if n = 6 then some "FLOOD"
  else none

/-- `unitCode ? (unitCodeToTag[String(unitCode)] || '') : ''`. -/
def tagOfDetail (d : MiscDetail) : String :=
  match d.unitCodeNumber with
  | some n => (unitCodeToTag n).getD ""
  | none => ""

/-- One iteration of the misc detail loop: accumulate the amount under the
detail's tag and into the running `detailSum`. -/
def miscDetailStep (acc : Totals × ℚ) (d : MiscDetail) : Totals × ℚ :=
  (addT acc.1 (tagOfDetail d) d.totalAmount, acc.2 + d.totalAmount)

/-- The result object of `computeMiscTotals`. -/
structure MiscTotals where
  glTotal : ℚ
  apptTotals : Totals

/-- `computeMiscTotals(db, fromDate, toDate)`: the grand total row and the
detail rows are supplied as inputs; a residual beyond 0.01 between the grand
total and the classified detail sum is added to the empty-string tag. -/
def computeMiscTotals (totalRow : Option ℚ) (details : List MiscDetail) : MiscTotals :=
  let glTotal := totalRow.getD 0
  let acc := details.foldl miscDetailStep (emptyTotals, 0)
  let unaccounted := glTotal - acc.2
  let apptTotals := if 1/100 < |unaccounted| then addT acc.1 "" unaccounted else acc.1
  ⟨glTotal, apptTotals⟩

/-! ### Mortgage totals (`computeMtgTotals`) -/

/-- The single grouped row of the mortgage pipeline. -/
structure MtgRow where
  totalMtgTax : ℚ
  totalCertFee : ℚ
  deriving DecidableEq, Repr

/-- The result object of `computeMtgTotals`. -/
structure MtgTotals where
  glTotals : Totals
  apptTotals : Totals

/-- `computeMtgTotals(db, fromDate, toDate)` with the pipeline's (optional)
single row supplied as input. -/
def computeMtgTotals (row : Option MtgRow) : MtgTotals :=
  let totalMtgTax := (row.map MtgRow.totalMtgTax).getD 0
  let totalCertFee := (row.map MtgRow.totalCertFee).getD 0
  ⟨setT (setT emptyTotals "MtgTax" totalMtgTax) "MtgTaxFee" totalCertFee,
   setT (setT emptyTotals "MtgTax" totalMtgTax) "MtgTaxCert" totalCertFee⟩

/-! ### Fund categories catalog -/

/-- One entry of the `FUND_CATEGORIES` table. -/
structure FundCategory where
  label : String
  description : String
  apptTags : List String
  cmnfundsAltKey : String
  tolerancePercent : Option ℚ := none
  deriving DecidableEq, Repr

/-- The static `FUND_CATEGORIES` table, in object insertion order. -/
def FUND_CATEGORIES : List FundCategory :=
  [ { label := "currentTax", description := "Current Tax"
      apptTags := ["CTax", "CTaxFee", "CTaxPen"], cmnfundsAltKey := "Current Tax" },
    { label := "priorTax", description := "Prior Tax"
      apptTags := ["PTax", "PTaxFee", "PTaxPen"], cmnfundsAltKey := "Prior Tax" },
    { label := "backTax", description := "Back Tax"
      apptTags := ["BTax", "BTaxFee", "BTaxPen"], cmnfundsAltKey := "Back Tax" },
    { label := "miscReceipts", description := "Misc Receipts"
      apptTags := ["ABT", "JT4MILL", "MV", "MVTS", "FLOOD", "INTEREST", "", "undefined"]
      cmnfundsAltKey := "MISC" },
    { label := "mtgTaxCert", description := "MtgTaxCert"
      apptTags := ["MtgTaxCert"], cmnfundsAltKey := "MtgTaxFee" },
    { label := "mtgTax", description := "MtgTax"
      apptTags := ["MtgTax"], cmnfundsAltKey := "MtgTax" } ]

/-! ### Fund map and GL cross-check (`getFundMap`, `getGLTotals`) -/

/-- One fund document from `cmnfunds` (already filtered to the fiscal year and
type "x" by the query): its `altKey` (possibly absent) and its `_id`
rendered as a string. -/
structure FundRec where
  altKey : Option String
  id : String
  deriving DecidableEq, Repr

/-- `getFundMap(db)`: build `altKey → fund id`, skipping funds with a falsy
`altKey`; later funds with the same `altKey` override earlier ones. -/
def getFundMap (funds : List FundRec) : String → Option String :=
  funds.foldl
    (fun m f =>
      match f.altKey with
      | some k => if k = "" then m else fun t => if t = k then some f.id else m t
      | none => m)
    (fun _ => none)

/-- One `gldailytransactions` document within the queried window and fiscal
year, with its fund id rendered as a string. -/
structure GLRow where
  fund : String
  deposit : ℚ
  payments : ℚ
  transferOut : ℚ
  deriving DecidableEq, Repr

/-- `getGLTotals(db, fromDate, toDate, fundIds)`: per fund in `fundIds`,
`net = deposits - payments - transfersOut` over the window's rows; a fund with
no rows has no entry. -/
def getGLTotals (rows : List GLRow) (fundIds : List String) : Totals :=
  fun f =>
    let rel := rows.filter (fun r => fundIds.contains r.fund && r.fund == f)
    if rel.isEmpty then none
    else some ((rel.map (fun r => r.deposit - r.payments - r.transferOut)).sum)

/-! ### Per-client check (`checkClient`), success path -/

/-- The tolerance picked by the comparison loop:
`cat.tolerancePercent ? Math.max(gl, appt) * (pct / 100) : 0.01`
(a zero percentage is falsy in JS and falls back to the absolute 0.01). -/
def toleranceFor (cat : FundCategory) (glAmount apptAmount : ℚ) : ℚ :=
  match cat.tolerancePercent with
  | some p => if p = 0 then 1/100 else max glAmount apptAmount * (p / 100)
  | none => 1/100

/-- One iteration of the comparison loop: sum the category's apportionment
tags (missing as 0), look up its GL total by fund alt key (missing as 0), and
compare under the category's tolerance. -/
def comparisonFor (appt glByFund : Totals) (cat : FundCategory) : ComparisonResult :=
  let apptAmount := (cat.apptTags.map (fun tag => getT appt tag)).sum
  let glAmount := getT glByFund cat.cmnfundsAltKey
  compareValues apptAmount glAmount (toleranceFor cat glAmount apptAmount)

/-- All per-tenant query results consumed by `checkClient` for one tenant:
the outputs of the aggregation queries against that tenant's database. -/
structure ClientData where
  noPriorTax : Bool
  funds : List FundRec
  taxA : List TaxRec
  taxB : List TaxRec
  miscTotalRow : Option ℚ
  miscDetails : List MiscDetail
  mtgRow : Option MtgRow
  glRows : List GLRow
  deriving DecidableEq, Repr

/-- The combined apportionment totals
`\x7b...taxResult.apptTotals, ...miscResult.apptTotals, ...mtgResult.apptTotals\x7d`. -/
def apptTotalsOf (dd : SDate) (d : ClientData) : Totals :=
  spread
    (spread (computeTaxTotals dd d.noPriorTax d.taxA d.taxB).apptTotals
      (computeMiscTotals d.miscTotalRow d.miscDetails).apptTotals)
    (computeMtgTotals d.mtgRow).apptTotals

/-- The combined GL totals
`\x7b...taxResult.glTotals, MISC: miscResult.glTotal, ...mtgResult.glTotals\x7d`. -/
def glByFundAltKeyOf (dd : SDate) (d : ClientData) : Totals :=
  spread
    (setT (computeTaxTotals dd d.noPriorTax d.taxA d.taxB).glTotals "MISC"
      (computeMiscTotals d.miscTotalRow d.miscDetails).glTotal)
    (computeMtgTotals d.mtgRow).glTotals

/-- The `comparison` object built by the loop over `FUND_CATEGORIES`, as an
ordered label/result list. -/
def comparisonOf (dd : SDate) (d : ClientData) : List (String × ComparisonResult) :=
  FUND_CATEGORIES.map fun cat =>
    (cat.label, comparisonFor (apptTotalsOf dd d) (glByFundAltKeyOf dd d) cat)

/-- `allMatch`: true unless some category failed to match. -/
def allMatchOf (dd : SDate) (d : ClientData) : Bool :=
  (comparisonOf dd d).all fun e => e.2.isMatch

/-- The fund ids pushed for categories whose alt key resolves in the fund
map, in catalog order. -/
def fundIdsOf (d : ClientData) : List String :=
  FUND_CATEGORIES.filterMap fun cat => getFundMap d.funds cat.cmnfundsAltKey

/-- The diagnostic GL cross-check: true when some category's independently
derived `gldailytransactions` net differs from the computed GL total by more
than 0.01.  Skipped (false) when no category's fund resolves. -/
def glDifferencesOf (dd : SDate) (d : ClientData) : Bool :=
  if fundIdsOf d = [] then false
  else
    FUND_CATEGORIES.any fun cat =>
      match getFundMap d.funds cat.cmnfundsAltKey with
      | none => false
      | some fid =>
          decide (1/100 <
            |getT (getGLTotals d.glRows (fundIdsOf d)) fid -
              getT (glByFundAltKeyOf dd d) cat.cmnfundsAltKey|)

/-- Tenant check status. -/
inductive Status where
  | MATCH | MISMATCH | ERROR
  deriving DecidableEq, Repr

/-- The parts of the `checkClient` result object that the success path
populates. -/
structure CheckOutput where
  status : Status
  comparison : List (String × ComparisonResult)
  deriving DecidableEq, Repr

/-- The success path of `checkClient`: the produced result object paired with
the diagnostic cross-check flag (which the script only logs). -/
def checkClientModel (dd : SDate) (d : ClientData) : CheckOutput × Bool :=
  (⟨if allMatchOf dd d then Status.MATCH else Status.MISMATCH, comparisonOf dd d⟩,
   glDifferencesOf dd d)

/-- First-match association lookup on the comparison list (JS property
access by category label). -/
def lookupLabel : List (String × ComparisonResult) → String → Option ComparisonResult
  | [], _ => none
  | e :: es, lbl => if e.1 = lbl then some e.2 else lookupLabel es lbl

/-- The category labels reported as mismatching (the summary printout and the
email table both filter the comparison entries with a false match flag). -/
def mismatchLabels (comparison : List (String × ComparisonResult)) : List String :=
  (comparison.filter fun e => e.2.isMatch = false).map fun e => e.1

/-! ### Lemmas about the accumulator maps -/

theorem getT_emptyTotals (t : String) : getT emptyTotals t = 0 := rfl

theorem getT_addT (m : Totals) (k : String) (v : ℚ) (t : String) :
    getT (addT m k v) t = getT m t + if k = t then v else 0 := by
  by_cases h : t = k
  · subst h; simp [getT, addT]
  · simp [getT, addT, h, Ne.symm h]

theorem addT_apply_of_ne (m : Totals) (k : String) (v : ℚ) (t : String) (h : t ≠ k) :
    addT m k v t = m t := by
  simp [addT, h]

theorem spread_apply_right_none (a b : Totals) (t : String) (h : b t = none) :
    spread a b t = a t := by
  simp [spread, h]

theorem spread_apply_left_none (a b : Totals) (t : String) (h : a t = none) :
    spread a b t = b t := by
  cases hb : b t <;> simp [spread, hb, h]

theorem getT_def (m : Totals) (k : String) : getT m k = (m k).getD 0 := rfl

theorem emptyTotals_apply (t : String) : emptyTotals t = none := rfl

theorem addT_apply (m : Totals) (k : String) (v : ℚ) (t : String) :
    addT m k v t = if t = k then some (getT m k + v) else m t := rfl

theorem setT_apply (m : Totals) (k : String) (v : ℚ) (t : String) :
    setT m k v t = if t = k then some v else m t := rfl

theorem spread_applyE (a b : Totals) (t : String) :
    spread a b t = (b t).elim (a t) some := by
  cases h : b t <;> simp [spread, h]

/-! ### Merge machinery: per-key sums are preserved by the merge loop -/

/-- A record functional that is additive across a same-key merge (it only
looks at the key and linearly at the four amounts). -/
def Additive (G : TaxRec → ℚ) : Prop :=
  ∀ m r, keyOf m = keyOf r → G (addAmounts m r) = G m + G r

theorem keyOf_eq_taxYear {m r : TaxRec} (h : keyOf m = keyOf r) :
    m.taxYear = r.taxYear :=
  congrArg Prod.fst h

theorem mergeInto_map_sum {G : TaxRec → ℚ} (hG : Additive G) :
    ∀ (ms : List TaxRec) (r : TaxRec),
      ((mergeInto ms r).map G).sum = (ms.map G).sum + G r := by
  intro ms
  induction ms with
  | nil => intro r; simp [mergeInto]
  | cons m ms ih =>
      intro r
      by_cases h : keyOf m = keyOf r
      · simp only [mergeInto, if_pos h, List.map_cons, List.sum_cons, hG m r h]
        ring
      · simp only [mergeInto, if_neg h, List.map_cons, List.sum_cons, ih r]
        ring

theorem foldl_mergeInto_map_sum {G : TaxRec → ℚ} (hG : Additive G) :
    ∀ (rs acc : List TaxRec),
      ((rs.foldl mergeInto acc).map G).sum = (acc.map G).sum + (rs.map G).sum := by
  intro rs
  induction rs with
  | nil => intro acc; simp
  | cons r rs ih =>
      intro acc
      simp only [List.foldl_cons, ih (mergeInto acc r), mergeInto_map_sum hG acc r,
        List.map_cons, List.sum_cons]
      ring

theorem mergeRecords_map_sum {G : TaxRec → ℚ} (hG : Additive G) (rs : List TaxRec) :
    ((mergeRecords rs).map G).sum = (rs.map G).sum := by
  simpa [mergeRecords] using foldl_mergeInto_map_sum hG rs []

/-! ### Classification: what one record contributes to each totals key -/

/-- Contribution of one merged record to GL fund key `t`. -/
def contribGL (tys : TaxYearStatus) (npt : Bool) (t : String) (r : TaxRec) : ℚ :=
  if glKeyOfCat (yearCategory tys npt r.taxYear) = t then r.total else 0

/-- Contribution of one merged record to apportionment tag `t`. -/
def contribAppt (tys : TaxYearStatus) (npt : Bool) (t : String) (r : TaxRec) : ℚ :=
  (if taxTagOfCat (yearCategory tys npt r.taxYear) = t then r.taxAmt else 0) +
  (if penTagOfCat (yearCategory tys npt r.taxYear) = t then r.penaltyAmt else 0) +
  (if feeTagOfCat (yearCategory tys npt r.taxYear) = t then r.totalFees else 0)

theorem additive_contribGL (tys : TaxYearStatus) (npt : Bool) (t : String) :
    Additive (contribGL tys npt t) := by
  intro m r h
  have hy : r.taxYear = m.taxYear := (keyOf_eq_taxYear h).symm
  simp only [contribGL, addAmounts, hy]
  split <;> simp

theorem additive_contribAppt (tys : TaxYearStatus) (npt : Bool) (t : String) :
    Additive (contribAppt tys npt t) := by
  intro m r h
  have hy : r.taxYear = m.taxYear := (keyOf_eq_taxYear h).symm
  simp only [contribAppt, addAmounts, hy]
  split <;> split <;> split <;> ring

theorem classifyStep_gl_getT (tys : TaxYearStatus) (npt : Bool)
    (acc : Totals × Totals) (r : TaxRec) (t : String) :
    getT (classifyStep tys npt acc r).1 t = getT acc.1 t + contribGL tys npt t r := by
  simp [classifyStep, getT_addT, contribGL]

theorem classifyStep_appt_getT (tys : TaxYearStatus) (npt : Bool)
    (acc : Totals × Totals) (r : TaxRec) (t : String) :
    getT (classifyStep tys npt acc r).2 t = getT acc.2 t + contribAppt tys npt t r := by
  simp [classifyStep, getT_addT, contribAppt]
  ring

theorem foldl_classifyStep_gl (tys : TaxYearStatus) (npt : Bool) :
    ∀ (ms : List TaxRec) (acc : Totals × Totals) (t : String),
      getT ((ms.foldl (classifyStep tys npt) acc).1) t
        = getT acc.1 t + (ms.map (contribGL tys npt t)).sum := by
  intro ms
  induction ms with
  | nil => intro acc t; simp
  | cons r ms ih =>
      intro acc t
      simp only [List.foldl_cons, ih (classifyStep tys npt acc r) t,
        classifyStep_gl_getT, List.map_cons, List.sum_cons]
      ring

theorem foldl_classifyStep_appt (tys : TaxYearStatus) (npt : Bool) :
    ∀ (ms : List TaxRec) (acc : Totals × Totals) (t : String),
      getT ((ms.foldl (classifyStep tys npt) acc).2) t
        = getT acc.2 t + (ms.map (contribAppt tys npt t)).sum := by
  intro ms
  induction ms with
  | nil => intro acc t; simp
  | cons r ms ih =>
      intro acc t
      simp only [List.foldl_cons, ih (classifyStep tys npt acc r) t,
        classifyStep_appt_getT, List.map_cons, List.sum_cons]
      ring

/-- The GL-side tax totals are, key by key, the sum over all raw rows of the
bucket-routed contribution. -/
theorem computeTaxTotals_gl (dd : SDate) (npt : Bool) (A B : List TaxRec) (t : String) :
    getT (computeTaxTotals dd npt A B).glTotals t
      = ((A ++ B).map (contribGL (getTaxYearStatus dd) npt t)).sum := by
  simp only [computeTaxTotals]
  rw [foldl_classifyStep_gl, getT_emptyTotals,
    mergeRecords_map_sum (additive_contribGL (getTaxYearStatus dd) npt t)]
  ring

/-- The apportionment-side tax totals are, tag by tag, the sum over all raw
rows of the bucket-routed contribution. -/
theorem computeTaxTotals_appt (dd : SDate) (npt : Bool) (A B : List TaxRec) (t : String) :
    getT (computeTaxTotals dd npt A B).apptTotals t
      = ((A ++ B).map (contribAppt (getTaxYearStatus dd) npt t)).sum := by
  simp only [computeTaxTotals]
  rw [foldl_classifyStep_appt, getT_emptyTotals,
    mergeRecords_map_sum (additive_contribAppt (getTaxYearStatus dd) npt t)]
  ring

/-- Additivity of a per-key amount selector across a same-key merge. -/
theorem additive_keyFilter (k : Int × Int) (f : TaxRec → ℚ)
    (hf : ∀ m r, f (addAmounts m r) = f m + f r) :
    Additive (fun r => if keyOf r = k then f r else 0) := by
  intro m r h
  have hk : keyOf (addAmounts m r) = keyOf m := rfl
  simp only [hk, hf m r, ← h]
  split <;> simp

/-- Per-key sums of the four amounts over the merged map of a raw row list. -/
def mergedSumAt (rs : List TaxRec) (k : Int × Int) : ℚ × ℚ × ℚ × ℚ :=
  (((mergeRecords rs).map fun r => if keyOf r = k then r.taxAmt else 0).sum,
   ((mergeRecords rs).map fun r => if keyOf r = k then r.penaltyAmt else 0).sum,
   ((mergeRecords rs).map fun r => if keyOf r = k then r.totalFees else 0).sum,
   ((mergeRecords rs).map fun r => if keyOf r = k then r.total else 0).sum)

/-! ### Claim theorems: fiscal classifier, cross-check frame, classification,
merge invariance -/

/-- C4: for every reference date, `getTaxYearStatus` returns
`currentTax = year - 1` when the month is at most 6 and `currentTax = year`
when the month is at least 7, and always `priorTax = currentTax - 1`,
`backTax = currentTax - 2`, `nextTax = currentTax + 1`; it is a total
function. -/
theorem getTaxYearStatus_fiscal_boundary (d : SDate) :
    (d.month ≤ 6 → (getTaxYearStatus d).currentTax = d.year - 1) ∧
    (7 ≤ d.month → (getTaxYearStatus d).currentTax = d.year) ∧
    (getTaxYearStatus d).priorTax = (getTaxYearStatus d).currentTax - 1 ∧
    (getTaxYearStatus d).backTax = (getTaxYearStatus d).currentTax - 2 ∧
    (getTaxYearStatus d).nextTax = (getTaxYearStatus d).currentTax + 1 := by
  refine ⟨fun h => ?_, fun h => ?_, rfl, rfl, rfl⟩
  · simp [getTaxYearStatus, h]
  · have h6 : ¬ d.month ≤ 6 := by omega
    simp [getTaxYearStatus, h6]

/-- Witness for C4 at concrete dates on both sides of the July 1 boundary. -/
theorem getTaxYearStatus_fiscal_boundary_witness :
    (getTaxYearStatus ⟨2025, 3⟩).currentTax = 2024 ∧
    (getTaxYearStatus ⟨2025, 9⟩).currentTax = 2025 := by
  constructor
  · have h := (getTaxYearStatus_fiscal_boundary ⟨2025, 3⟩).1 (by norm_num)
    rw [h]
    norm_num
  · exact (getTaxYearStatus_fiscal_boundary ⟨2025, 9⟩).2.1 (by norm_num)

/-- C1: the GL cross-check is diagnostic only: the result object produced by
`checkClient` (every category's comparison record, hence every per-category
match flag, and the tenant's MATCH/MISMATCH status) is the same no matter
what the `gldailytransactions` rows contain. -/
theorem crossCheck_diagnostic_only (dd : SDate) (d : ClientData)
    (rows rows' : List GLRow) :
    (checkClientModel dd { d with glRows := rows }).1
      = (checkClientModel dd { d with glRows := rows' }).1 := by
  cases d
  rfl

/-- C5: each merged record is bucketed current / (back when `noPriorTax`) /
prior / back by the nested conditional; a `priorTax` record is routed to back
when `noPriorTax` is set; and both the GL-side and the apportionment-side
totals are the running sums of the bucket-routed contributions of every raw
record, using the same bucket (`yearCategory`) on both sides. -/
theorem classification_bucket_rule (dd : SDate) (npt : Bool)
    (rsA rsB : List TaxRec) (t : String) :
    (∀ y : Int,
      yearCategory (getTaxYearStatus dd) npt y =
        if y = (getTaxYearStatus dd).currentTax then Cat.current
        else if npt then Cat.back
        else if y = (getTaxYearStatus dd).priorTax then Cat.prior
        else Cat.back) ∧
    yearCategory (getTaxYearStatus dd) true (getTaxYearStatus dd).priorTax = Cat.back ∧
    getT (computeTaxTotals dd npt rsA rsB).glTotals t
      = ((rsA ++ rsB).map (contribGL (getTaxYearStatus dd) npt t)).sum ∧
    getT (computeTaxTotals dd npt rsA rsB).apptTotals t
      = ((rsA ++ rsB).map (contribAppt (getTaxYearStatus dd) npt t)).sum := by
  refine ⟨fun y => rfl, ?_, computeTaxTotals_gl dd npt rsA rsB t,
    computeTaxTotals_appt dd npt rsA rsB t⟩
  have hne : (getTaxYearStatus dd).priorTax ≠ (getTaxYearStatus dd).currentTax := by
    simp only [getTaxYearStatus]
    omega
  simp [yearCategory, hne]

/-- C9: merging the raw aggregate sets in order `[A, B]` yields the same
per-key merged sums and the same downstream GL and apportionment totals as
merging in order `[B, A]`. -/
theorem merge_order_invariance (dd : SDate) (npt : Bool) (A B : List TaxRec) :
    (∀ k : Int × Int, mergedSumAt (A ++ B) k = mergedSumAt (B ++ A) k) ∧
    (∀ t : String,
      getT (computeTaxTotals dd npt A B).glTotals t
        = getT (computeTaxTotals dd npt B A).glTotals t) ∧
    (∀ t : String,
      getT (computeTaxTotals dd npt A B).apptTotals t
        = getT (computeTaxTotals dd npt B A).apptTotals t) := by
  have key : ∀ G : TaxRec → ℚ, Additive G →
      ((mergeRecords (A ++ B)).map G).sum = ((mergeRecords (B ++ A)).map G).sum := by
    intro G hG
    rw [mergeRecords_map_sum hG, mergeRecords_map_sum hG]
    simp only [List.map_append, List.sum_append]
    ring
  refine ⟨fun k => ?_, fun t => ?_, fun t => ?_⟩
  · simp only [mergedSumAt, Prod.mk.injEq]
    exact ⟨key _ (additive_keyFilter k (fun r => r.taxAmt) fun m r => rfl),
      key _ (additive_keyFilter k (fun r => r.penaltyAmt) fun m r => rfl),
      key _ (additive_keyFilter k (fun r => r.totalFees) fun m r => rfl),
      key _ (additive_keyFilter k (fun r => r.total) fun m r => rfl)⟩
  · rw [computeTaxTotals_gl, computeTaxTotals_gl]
    simp only [List.map_append, List.sum_append]
    ring
  · rw [computeTaxTotals_appt, computeTaxTotals_appt]
    simp only [List.map_append, List.sum_append]
    ring

/-! ### Comparator lemmas and claim theorem -/

theorem compareValues_isMatch_iff (a g tol : ℚ) :
    (compareValues a g tol).isMatch = true ↔ |a - g| ≤ tol := by
  simp [compareValues]

/-- C6: the match flag is true iff the unrounded absolute difference is at
most the tolerance (boundary inclusive; tolerance plus 0.001 fails); the
tolerance is the absolute 0.01 for every catalog category (none declares a
percentage), and the percentage threshold `max(gl, appt) * pct / 100` for any
category declaring a nonzero percentage; the reported `diff` is the rounded
difference while the decision uses the unrounded one; and the tenant status
is MATCH iff every category matches. -/
theorem tolerance_comparison_rule :
    (∀ a g tol : ℚ, ((compareValues a g tol).isMatch = true ↔ |a - g| ≤ tol) ∧
        (compareValues a g tol).diff = round2 |a - g|) ∧
    (∀ a g tol : ℚ, |a - g| = tol → (compareValues a g tol).isMatch = true) ∧
    (∀ a g tol : ℚ, |a - g| = tol + 1/1000 → (compareValues a g tol).isMatch = false) ∧
    (∀ cat ∈ FUND_CATEGORIES, cat.tolerancePercent = none ∧
        ∀ gl appt : ℚ, toleranceFor cat gl appt = 1/100) ∧
    (∀ (cat : FundCategory) (p : ℚ), cat.tolerancePercent = some p → p ≠ 0 →
        ∀ gl appt : ℚ, toleranceFor cat gl appt = max gl appt * (p / 100)) ∧
    (∀ (dd : SDate) (d : ClientData),
        (checkClientModel dd d).1.status = Status.MATCH ↔
          ∀ e ∈ (checkClientModel dd d).1.comparison, e.2.isMatch = true) := by
  refine ⟨fun a g tol => ⟨compareValues_isMatch_iff a g tol, rfl⟩,
    fun a g tol h => ?_, fun a g tol h => ?_, fun cat hcat => ?_,
    fun cat p hp hne gl appt => ?_, fun dd d => ?_⟩
  · exact (compareValues_isMatch_iff a g tol).mpr (le_of_eq h)
  · have hgt : ¬ |a - g| ≤ tol := by rw [h]; intro hc; linarith
    simp [compareValues, hgt]
  · fin_cases hcat <;> exact ⟨rfl, fun gl appt => rfl⟩
  · simp [toleranceFor, hp, hne]
  · have hall : (allMatchOf dd d = true)
        ↔ ∀ e ∈ comparisonOf dd d, e.2.isMatch = true := by
      simp [allMatchOf]
    by_cases h : allMatchOf dd d = true
    · refine iff_of_true ?_ ?_
      · show (if allMatchOf dd d = true then Status.MATCH else Status.MISMATCH)
            = Status.MATCH
        rw [if_pos h]
      · exact hall.mp h
    · refine iff_of_false ?_ ?_
      · show ¬ (if allMatchOf dd d = true then Status.MATCH else Status.MISMATCH)
            = Status.MATCH
        rw [if_neg h]
        simp
      · exact fun hc => h (hall.mpr hc)

/-- A category carrying a nonzero percentage tolerance, exercising the
dormant `tolerancePercent` branch. -/
def pctCatEx : FundCategory :=
  { label := "x", description := "x", apptTags := [], cmnfundsAltKey := "x",
    tolerancePercent := some 5 }

/-- The first catalog category, for exercising the default tolerance. -/
def headCatEx : FundCategory :=
  { label := "currentTax", description := "Current Tax",
    apptTags := ["CTax", "CTaxFee", "CTaxPen"], cmnfundsAltKey := "Current Tax" }

/-- Witness for C6: boundary instances and the dormant percentage branch at
concrete values, plus the default tolerance of the first catalog category. -/
theorem tolerance_comparison_rule_witness :
    (compareValues 1 0 1).isMatch = true ∧
    (compareValues 1 0 (999/1000)).isMatch = false ∧
    toleranceFor pctCatEx 10 20 = 1 ∧
    headCatEx ∈ FUND_CATEGORIES ∧ toleranceFor headCatEx 3 4 = 1/100 := by
  refine ⟨?_, ?_, ?_, ?_, ?_⟩
  · exact tolerance_comparison_rule.2.1 1 0 1 (by norm_num)
  · exact tolerance_comparison_rule.2.2.1 1 0 (999/1000) (by norm_num)
  · rw [tolerance_comparison_rule.2.2.2.2.1 pctCatEx 5 rfl (by norm_num) 10 20]
    norm_num
  · exact List.mem_cons_self _ _
  · exact (tolerance_comparison_rule.2.2.2.1 headCatEx (List.mem_cons_self _ _)).2 3 4

/-! ### Misc residual lemmas and claim theorem -/

theorem miscDetailStep_getT (acc : Totals × ℚ) (d : MiscDetail) (t : String) :
    getT (miscDetailStep acc d).1 t
      = getT acc.1 t + (if tagOfDetail d = t then d.totalAmount else 0) := by
  simp [miscDetailStep, getT_addT]

theorem foldl_miscDetailStep_getT :
    ∀ (ds : List MiscDetail) (acc : Totals × ℚ) (t : String),
      getT ((ds.foldl miscDetailStep acc).1) t
        = getT acc.1 t
          + (ds.map fun d => if tagOfDetail d = t then d.totalAmount else 0).sum := by
  intro ds
  induction ds with
  | nil => intro acc t; simp
  | cons d ds ih =>
      intro acc t
      simp only [List.foldl_cons, ih (miscDetailStep acc d) t, miscDetailStep_getT,
        List.map_cons, List.sum_cons]
      ring

theorem foldl_miscDetailStep_snd :
    ∀ (ds : List MiscDetail) (acc : Totals × ℚ),
      (ds.foldl miscDetailStep acc).2 = acc.2 + (ds.map MiscDetail.totalAmount).sum := by
  intro ds
  induction ds with
  | nil => intro acc; simp
  | cons d ds ih =>
      intro acc
      rw [List.foldl_cons, ih (miscDetailStep acc d)]
      simp only [miscDetailStep, List.map_cons, List.sum_cons]
      ring

/-- C7: the residual between the misc grand total and the summed classified
details is added, exactly, to the empty-string tag when its magnitude exceeds
0.01, and nothing is added otherwise; in particular a 1000.00 grand total with
950.00 of classified units yields an unclassified bucket of 50.00, while
1000.005 of classified units yields no unclassified bucket at all. -/
theorem misc_unclassified_residual :
    (∀ (totalRow : Option ℚ) (details : List MiscDetail),
      getT (computeMiscTotals totalRow details).apptTotals ""
        = (details.map fun d => if tagOfDetail d = "" then d.totalAmount else 0).sum
          + (if 1/100 < |totalRow.getD 0 - (details.map MiscDetail.totalAmount).sum|
             then totalRow.getD 0 - (details.map MiscDetail.totalAmount).sum else 0)) ∧
    getT (computeMiscTotals (some 1000) [⟨some 1, 950⟩]).apptTotals "" = 50 ∧
    getT (computeMiscTotals (some 1000) [⟨some 1, 950⟩]).apptTotals "ABT" = 950 ∧
    (computeMiscTotals (some 1000) [⟨some 1, 1000 + 5/1000⟩]).apptTotals "" = none := by
  refine ⟨fun totalRow details => ?_,
    by norm_num [computeMiscTotals, List.foldl_cons, List.foldl_nil, miscDetailStep,
      tagOfDetail, unitCodeToTag, getT_def, addT_apply, emptyTotals_apply,
      abs_of_nonneg, abs_of_nonpos]; simp,
    by norm_num [computeMiscTotals, List.foldl_cons, List.foldl_nil, miscDetailStep,
      tagOfDetail, unitCodeToTag, getT_def, addT_apply, emptyTotals_apply,
      abs_of_nonneg, abs_of_nonpos]; simp,
    by norm_num [computeMiscTotals, List.foldl_cons, List.foldl_nil, miscDetailStep,
      tagOfDetail, unitCodeToTag, getT_def, addT_apply, emptyTotals_apply,
      abs_of_nonneg, abs_of_nonpos]; simp⟩
  have hsnd : (details.foldl miscDetailStep (emptyTotals, 0)).2
      = (details.map MiscDetail.totalAmount).sum := by
    rw [foldl_miscDetailStep_snd]
    ring
  have hget : getT ((details.foldl miscDetailStep (emptyTotals, 0)).1) ""
      = (details.map fun d => if tagOfDetail d = "" then d.totalAmount else 0).sum := by
    rw [foldl_miscDetailStep_getT, getT_emptyTotals]
    ring
  simp only [computeMiscTotals, hsnd]
  split
  · rw [getT_addT, hget]
    simp
  · rw [hget]
    ring

/-! ### Support of the domain totals maps -/

/-- The nine apportionment tags the tax classification can write. -/
def TAX_APPT_TAGS : List String :=
  ["CTax", "CTaxPen", "CTaxFee", "PTax", "PTaxPen", "PTaxFee", "BTax", "BTaxPen", "BTaxFee"]

theorem taxTagOfCat_mem (cat : Cat) : taxTagOfCat cat ∈ TAX_APPT_TAGS := by
  cases cat <;> decide

theorem penTagOfCat_mem (cat : Cat) : penTagOfCat cat ∈ TAX_APPT_TAGS := by
  cases cat <;> decide

theorem feeTagOfCat_mem (cat : Cat) : feeTagOfCat cat ∈ TAX_APPT_TAGS := by
  cases cat <;> decide

theorem foldl_classifyStep_appt_none (tys : TaxYearStatus) (npt : Bool) :
    ∀ (ms : List TaxRec) (acc : Totals × Totals) (t : String),
      acc.2 t = none → t ∉ TAX_APPT_TAGS →
      ((ms.foldl (classifyStep tys npt) acc).2) t = none := by
  intro ms
  induction ms with
  | nil => intro acc t h _; exact h
  | cons r ms ih =>
      intro acc t h ht
      rw [List.foldl_cons]
      refine ih (classifyStep tys npt acc r) t ?_ ht
      have h1 : t ≠ taxTagOfCat (yearCategory tys npt r.taxYear) :=
        fun he => ht (he ▸ taxTagOfCat_mem _)
      have h2 : t ≠ penTagOfCat (yearCategory tys npt r.taxYear) :=
        fun he => ht (he ▸ penTagOfCat_mem _)
      have h3 : t ≠ feeTagOfCat (yearCategory tys npt r.taxYear) :=
        fun he => ht (he ▸ feeTagOfCat_mem _)
      show (addT (addT (addT acc.2 _ _) _ _) _ _) t = none
      rw [addT_apply_of_ne _ _ _ _ h3, addT_apply_of_ne _ _ _ _ h2,
        addT_apply_of_ne _ _ _ _ h1]
      exact h

theorem computeTaxTotals_appt_none (dd : SDate) (npt : Bool) (A B : List TaxRec)
    (t : String) (ht : t ∉ TAX_APPT_TAGS) :
    (computeTaxTotals dd npt A B).apptTotals t = none := by
  simp only [computeTaxTotals]
  exact foldl_classifyStep_appt_none _ _ _ _ t rfl ht

/-- The tags the misc detail loop can write. -/
def MISC_DETAIL_TAGS : List String := ["ABT", "MV", "MVTS", "JT4MILL", "INTEREST", "FLOOD", ""]

theorem tagOfDetail_mem (d : MiscDetail) : tagOfDetail d ∈ MISC_DETAIL_TAGS := by
  rcases d with ⟨u, a⟩
  cases u with
  | none =>
      show ("" : String) ∈ MISC_DETAIL_TAGS
      decide
  | some n =>
      show (unitCodeToTag n).getD "" ∈ MISC_DETAIL_TAGS
      unfold unitCodeToTag
      split_ifs <;> decide

theorem foldl_miscDetailStep_none :
    ∀ (ds : List MiscDetail) (acc : Totals × ℚ) (t : String),
      acc.1 t = none → t ∉ MISC_DETAIL_TAGS →
      ((ds.foldl miscDetailStep acc).1) t = none := by
  intro ds
  induction ds with
  | nil => intro acc t h _; exact h
  | cons d ds ih =>
      intro acc t h ht
      rw [List.foldl_cons]
      refine ih (miscDetailStep acc d) t ?_ ht
      have h1 : t ≠ tagOfDetail d := fun he => ht (he ▸ tagOfDetail_mem d)
      show addT acc.1 _ _ t = none
      rw [addT_apply_of_ne _ _ _ _ h1]
      exact h

theorem computeMiscTotals_appt_none (tot : Option ℚ) (ds : List MiscDetail)
    (t : String) (ht : t ∉ MISC_DETAIL_TAGS) :
    (computeMiscTotals tot ds).apptTotals t = none := by
  simp only [computeMiscTotals]
  split
  · have h0 : t ≠ "" := fun he => ht (he ▸ (by decide : ("" : String) ∈ MISC_DETAIL_TAGS))
    rw [addT_apply_of_ne _ _ _ _ h0]
    exact foldl_miscDetailStep_none ds _ t rfl ht
  · exact foldl_miscDetailStep_none ds _ t rfl ht

theorem mtg_appt_apply (row : Option MtgRow) (t : String) :
    (computeMtgTotals row).apptTotals t =
      if t = "MtgTaxCert" then some ((row.map MtgRow.totalCertFee).getD 0)
      else if t = "MtgTax" then some ((row.map MtgRow.totalMtgTax).getD 0)
      else none := rfl

theorem mtg_gl_apply (row : Option MtgRow) (t : String) :
    (computeMtgTotals row).glTotals t =
      if t = "MtgTaxFee" then some ((row.map MtgRow.totalCertFee).getD 0)
      else if t = "MtgTax" then some ((row.map MtgRow.totalMtgTax).getD 0)
      else none := rfl

/-! ### Sums of a totals map over a tag list -/

/-- The sum of a totals map over a list of tags (missing tags read as 0). -/
def sumTags (m : Totals) (L : List String) : ℚ := (L.map (getT m)).sum

theorem sumTags_addT (m : Totals) (k : String) (v : ℚ) :
    ∀ L : List String, L.Nodup →
      sumTags (addT m k v) L = sumTags m L + (if k ∈ L then v else 0) := by
  intro L
  induction L with
  | nil => intro _; simp [sumTags]
  | cons a L ih =>
      intro hnd
      rcases List.nodup_cons.mp hnd with ⟨ha, hL⟩
      have hrest := ih hL
      simp only [sumTags, List.map_cons, List.sum_cons] at hrest ⊢
      rw [getT_addT, hrest]
      by_cases hk : k = a
      · subst hk
        simp [ha]
        ring
      · simp [List.mem_cons, hk]
        ring

theorem sumTags_foldl_misc (L : List String) (hnd : L.Nodup)
    (hsub : ∀ d : MiscDetail, tagOfDetail d ∈ L) :
    ∀ (ds : List MiscDetail) (acc : Totals × ℚ),
      sumTags ((ds.foldl miscDetailStep acc).1) L
        = sumTags acc.1 L + (ds.map MiscDetail.totalAmount).sum := by
  intro ds
  induction ds with
  | nil => intro acc; simp
  | cons d ds ih =>
      intro acc
      rw [List.foldl_cons, ih (miscDetailStep acc d)]
      show sumTags (addT acc.1 (tagOfDetail d) d.totalAmount) L + _ = _
      rw [sumTags_addT _ _ _ L hnd, if_pos (hsub d)]
      simp only [List.map_cons, List.sum_cons]
      ring

/-- The misc category's tag list from the catalog. -/
def MISC_CAT_TAGS : List String :=
  ["ABT", "JT4MILL", "MV", "MVTS", "FLOOD", "INTEREST", "", "undefined"]

theorem sumTags_emptyTotals (L : List String) : sumTags emptyTotals L = 0 := by
  induction L with
  | nil => rfl
  | cons a L ih => simp [sumTags, List.map_cons, List.sum_cons, getT_emptyTotals] at ih ⊢; exact ih

/-- Whatever the misc inputs are, the misc apportionment tags sum to within
0.01 of the misc grand total (exactly when the residual step fired). -/
theorem computeMiscTotals_mass (tot : Option ℚ) (ds : List MiscDetail) :
    |sumTags (computeMiscTotals tot ds).apptTotals MISC_CAT_TAGS
      - (computeMiscTotals tot ds).glTotal| ≤ 1/100 := by
  have hsub : ∀ d : MiscDetail, tagOfDetail d ∈ MISC_CAT_TAGS := fun d =>
    (by decide : MISC_DETAIL_TAGS ⊆ MISC_CAT_TAGS) (tagOfDetail_mem d)
  have hfold := sumTags_foldl_misc MISC_CAT_TAGS (by decide) hsub ds (emptyTotals, 0)
  have hsnd := foldl_miscDetailStep_snd ds (emptyTotals, 0)
  simp only [computeMiscTotals]
  split
  · rename_i h
    rw [sumTags_addT _ _ _ _ (by decide),
      if_pos (by decide : ("" : String) ∈ MISC_CAT_TAGS), hfold, sumTags_emptyTotals,
      hsnd]
    have : (0:ℚ) + (ds.map MiscDetail.totalAmount).sum
        + (tot.getD 0 - (0 + (ds.map MiscDetail.totalAmount).sum)) - tot.getD 0 = 0 := by
      ring
    rw [this]
    norm_num
  · rename_i h
    rw [hfold, sumTags_emptyTotals, hsnd] at *
    have h2 : |tot.getD 0 - (0 + (ds.map MiscDetail.totalAmount).sum)| ≤ 1/100 :=
      le_of_not_lt h
    calc |0 + (ds.map MiscDetail.totalAmount).sum - tot.getD 0|
        = |tot.getD 0 - (0 + (ds.map MiscDetail.totalAmount).sum)| := abs_sub_comm _ _
      _ ≤ 1/100 := h2

/-! ### Reading the combined maps built by `checkClient` -/

theorem apptTotalsOf_eq_misc (dd : SDate) (d : ClientData) (t : String)
    (ht : t ∉ TAX_APPT_TAGS) (h1 : t ≠ "MtgTax") (h2 : t ≠ "MtgTaxCert") :
    getT (apptTotalsOf dd d) t
      = getT (computeMiscTotals d.miscTotalRow d.miscDetails).apptTotals t := by
  have hm : (computeMtgTotals d.mtgRow).apptTotals t = none := by
    rw [mtg_appt_apply]
    simp [h1, h2]
  have htax : (computeTaxTotals dd d.noPriorTax d.taxA d.taxB).apptTotals t = none :=
    computeTaxTotals_appt_none _ _ _ _ t ht
  unfold apptTotalsOf
  rw [getT_def, spread_apply_right_none _ _ _ hm, spread_apply_left_none _ _ _ htax,
    ← getT_def]

theorem apptTotalsOf_MtgTax (dd : SDate) (d : ClientData) :
    getT (apptTotalsOf dd d) "MtgTax" = (d.mtgRow.map MtgRow.totalMtgTax).getD 0 := by
  unfold apptTotalsOf
  rw [getT_def, spread_applyE, mtg_appt_apply]
  simp

theorem apptTotalsOf_MtgTaxCert (dd : SDate) (d : ClientData) :
    getT (apptTotalsOf dd d) "MtgTaxCert" = (d.mtgRow.map MtgRow.totalCertFee).getD 0 := by
  unfold apptTotalsOf
  rw [getT_def, spread_applyE, mtg_appt_apply]
  simp

theorem glByFund_MISC (dd : SDate) (d : ClientData) :
    getT (glByFundAltKeyOf dd d) "MISC"
      = (computeMiscTotals d.miscTotalRow d.miscDetails).glTotal := by
  have hm : (computeMtgTotals d.mtgRow).glTotals "MISC" = none := by
    rw [mtg_gl_apply]
    simp
  unfold glByFundAltKeyOf
  rw [getT_def, spread_apply_right_none _ _ _ hm, setT_apply]
  simp

theorem glByFund_MtgTax (dd : SDate) (d : ClientData) :
    getT (glByFundAltKeyOf dd d) "MtgTax" = (d.mtgRow.map MtgRow.totalMtgTax).getD 0 := by
  unfold glByFundAltKeyOf
  rw [getT_def, spread_applyE, mtg_gl_apply]
  simp

theorem glByFund_MtgTaxFee (dd : SDate) (d : ClientData) :
    getT (glByFundAltKeyOf dd d) "MtgTaxFee" = (d.mtgRow.map MtgRow.totalCertFee).getD 0 := by
  unfold glByFundAltKeyOf
  rw [getT_def, spread_applyE, mtg_gl_apply]
  simp

/-! ### Per-category comparison facts -/

theorem compareValues_self_isMatch (a tol : ℚ) (h : 0 ≤ tol) :
    (compareValues a a tol).isMatch = true := by
  simp [compareValues, h]

theorem compareValues_self_diff (a tol : ℚ) : (compareValues a a tol).diff = 0 := by
  simp only [compareValues, sub_self, abs_zero, round2]
  norm_num

theorem comparisonFor_single_tag (appt glByFund : Totals) (lbl desc tag fk : String)
    (h : getT appt tag = getT glByFund fk) :
    (comparisonFor appt glByFund ⟨lbl, desc, [tag], fk, none⟩).isMatch = true ∧
    (comparisonFor appt glByFund ⟨lbl, desc, [tag], fk, none⟩).diff = 0 := by
  have e : comparisonFor appt glByFund ⟨lbl, desc, [tag], fk, none⟩
      = compareValues (getT glByFund fk) (getT glByFund fk) (1/100) := by
    simp [comparisonFor, toleranceFor, h]
  rw [e]
  exact ⟨compareValues_self_isMatch _ _ (by norm_num), compareValues_self_diff _ _⟩

theorem comparisonFor_misc_isMatch (dd : SDate) (d : ClientData) :
    (comparisonFor (apptTotalsOf dd d) (glByFundAltKeyOf dd d)
      ⟨"miscReceipts", "Misc Receipts", MISC_CAT_TAGS, "MISC", none⟩).isMatch = true := by
  have happt : (MISC_CAT_TAGS.map fun tag => getT (apptTotalsOf dd d) tag).sum
      = sumTags (computeMiscTotals d.miscTotalRow d.miscDetails).apptTotals
          MISC_CAT_TAGS := by
    simp only [MISC_CAT_TAGS, List.map_cons, List.map_nil, sumTags]
    rw [apptTotalsOf_eq_misc dd d "ABT" (by decide) (by decide) (by decide),
      apptTotalsOf_eq_misc dd d "JT4MILL" (by decide) (by decide) (by decide),
      apptTotalsOf_eq_misc dd d "MV" (by decide) (by decide) (by decide),
      apptTotalsOf_eq_misc dd d "MVTS" (by decide) (by decide) (by decide),
      apptTotalsOf_eq_misc dd d "FLOOD" (by decide) (by decide) (by decide),
      apptTotalsOf_eq_misc dd d "INTEREST" (by decide) (by decide) (by decide),
      apptTotalsOf_eq_misc dd d "" (by decide) (by decide) (by decide),
      apptTotalsOf_eq_misc dd d "undefined" (by decide) (by decide) (by decide)]
  have e : comparisonFor (apptTotalsOf dd d) (glByFundAltKeyOf dd d)
        ⟨"miscReceipts", "Misc Receipts", MISC_CAT_TAGS, "MISC", none⟩
      = compareValues
          (sumTags (computeMiscTotals d.miscTotalRow d.miscDetails).apptTotals
            MISC_CAT_TAGS)
          (computeMiscTotals d.miscTotalRow d.miscDetails).glTotal (1/100) := by
    simp only [comparisonFor, toleranceFor]
    rw [happt, glByFund_MISC]
  rw [e]
  have hmass := computeMiscTotals_mass d.miscTotalRow d.miscDetails
  simp only [compareValues, decide_eq_true_eq]
  exact hmass

/-- C10: on every input, the three non-tax categories match: `mtgTax` and
`mtgTaxCert` always report `match = true` with `diff = 0` (their
apportionment and GL totals are assigned from the same mortgage sums), and
`miscReceipts` always reports `match = true` (the unclassified-residual rule
keeps the tag sum within 0.01 of the misc grand total used as its GL value);
hence a MISMATCH status always comes from `currentTax`, `priorTax` or
`backTax`. -/
theorem nonTax_categories_always_match (dd : SDate) (d : ClientData) :
    (∃ c, lookupLabel (checkClientModel dd d).1.comparison "mtgTax" = some c ∧
        c.isMatch = true ∧ c.diff = 0) ∧
    (∃ c, lookupLabel (checkClientModel dd d).1.comparison "mtgTaxCert" = some c ∧
        c.isMatch = true ∧ c.diff = 0) ∧
    (∃ c, lookupLabel (checkClientModel dd d).1.comparison "miscReceipts" = some c ∧
        c.isMatch = true) ∧
    ((checkClientModel dd d).1.status = Status.MISMATCH →
      ∃ lbl ∈ (["currentTax", "priorTax", "backTax"] : List String),
        ∃ c, lookupLabel (checkClientModel dd d).1.comparison lbl = some c ∧
          c.isMatch = false) := by
  have hmtg := comparisonFor_single_tag (apptTotalsOf dd d) (glByFundAltKeyOf dd d)
    "mtgTax" "MtgTax" "MtgTax" "MtgTax"
    (by rw [apptTotalsOf_MtgTax, glByFund_MtgTax])
  have hcert := comparisonFor_single_tag (apptTotalsOf dd d) (glByFundAltKeyOf dd d)
    "mtgTaxCert" "MtgTaxCert" "MtgTaxCert" "MtgTaxFee"
    (by rw [apptTotalsOf_MtgTaxCert, glByFund_MtgTaxFee])
  have hmisc := comparisonFor_misc_isMatch dd d
  have l6 : lookupLabel (checkClientModel dd d).1.comparison "mtgTax"
      = some (comparisonFor (apptTotalsOf dd d) (glByFundAltKeyOf dd d)
          ⟨"mtgTax", "MtgTax", ["MtgTax"], "MtgTax", none⟩) := rfl
  have l5 : lookupLabel (checkClientModel dd d).1.comparison "mtgTaxCert"
      = some (comparisonFor (apptTotalsOf dd d) (glByFundAltKeyOf dd d)
          ⟨"mtgTaxCert", "MtgTaxCert", ["MtgTaxCert"], "MtgTaxFee", none⟩) := rfl
  have l4 : lookupLabel (checkClientModel dd d).1.comparison "miscReceipts"
      = some (comparisonFor (apptTotalsOf dd d) (glByFundAltKeyOf dd d)
          ⟨"miscReceipts", "Misc Receipts", MISC_CAT_TAGS, "MISC", none⟩) := rfl
  refine ⟨⟨_, l6, hmtg.1, hmtg.2⟩, ⟨_, l5, hcert.1, hcert.2⟩, ⟨_, l4, hmisc⟩, ?_⟩
  intro hstat
  by_cases hb : allMatchOf dd d = true
  · exfalso
    have hms : (checkClientModel dd d).1.status = Status.MATCH := by
      show (if allMatchOf dd d = true then Status.MATCH else Status.MISMATCH)
          = Status.MATCH
      rw [if_pos hb]
    rw [hms] at hstat
    exact Status.noConfusion hstat
  · have hfalse : allMatchOf dd d = false := by
      cases h2 : allMatchOf dd d
      · rfl
      · exact absurd h2 hb
    have hex : ∃ e ∈ comparisonOf dd d, e.2.isMatch = false := by
      have h3 := hfalse
      simp only [allMatchOf, List.all_eq_false, Bool.not_eq_true] at h3
      exact h3
    obtain ⟨e, he, hne⟩ := hex
    simp only [comparisonOf, List.mem_map] at he
    obtain ⟨cat, hcat, rfl⟩ := he
    fin_cases hcat
    · exact ⟨"currentTax", by decide, _, rfl, hne⟩
    · exact ⟨"priorTax", by decide, _, rfl, hne⟩
    · exact ⟨"backTax", by decide, _, rfl, hne⟩
    · exact Bool.noConfusion (hmisc.symm.trans hne)
    · exact Bool.noConfusion (hcert.1.symm.trans hne)
    · exact Bool.noConfusion (hmtg.1.symm.trans hne)

/-- A reference date in October 2025 (current tax year 2025). -/
def ddEx : SDate := ⟨2025, 10⟩

/-- A current-year record whose `total` disagrees with its component sum,
forcing a `currentTax` mismatch. -/
def recMM : TaxRec := ⟨2025, 1, 100, 5, 2, 200⟩

/-- Client data producing a MISMATCH driven by `currentTax` only. -/
def dataMM : ClientData := ⟨false, [], [recMM], [], none, [], none, []⟩

/-- Witness for C10 at a concrete mismatching input. -/
theorem nonTax_categories_always_match_witness :
    (checkClientModel ddEx dataMM).1.status = Status.MISMATCH ∧
    ∃ lbl ∈ (["currentTax", "priorTax", "backTax"] : List String),
      ∃ c, lookupLabel (checkClientModel ddEx dataMM).1.comparison lbl = some c ∧
        c.isMatch = false := by
  have hst : (checkClientModel ddEx dataMM).1.status = Status.MISMATCH := by
    simp [checkClientModel, allMatchOf, comparisonOf, FUND_CATEGORIES, comparisonFor,
      toleranceFor, compareValues, apptTotalsOf, glByFundAltKeyOf, computeTaxTotals,
      getTaxYearStatus, mergeRecords, mergeInto, keyOf, addAmounts, classifyStep,
      yearCategory, glKeyOfCat, taxTagOfCat, penTagOfCat, feeTagOfCat, computeMiscTotals,
      miscDetailStep, tagOfDetail, unitCodeToTag, computeMtgTotals, spread_applyE,
      setT_apply, addT_apply, getT_def, emptyTotals_apply, ddEx, dataMM, recMM]
    norm_num [emptyTotals_apply, Option.elim, abs_of_nonneg, abs_of_nonpos]
  exact ⟨hst, (nonTax_categories_always_match ddEx dataMM).2.2.2 hst⟩

/-! ### End-to-end scenario: one current-year record on both tax sources -/

/-- The scenario record: current-year amounts 100/5/2 with total 107, keyed
`(taxYear = 2025, district = 1)`. -/
def recEx : TaxRec := ⟨2025, 1, 100, 5, 2, 107⟩

/-- Scenario client data with the record present on both tax-domain sources,
a "Current Tax" fund mapping, and ledger rows netting 107 for that fund. -/
def dataC3 : ClientData :=
  ⟨false, [⟨some "Current Tax", "fund1"⟩], [recEx], [recEx], none, [], none,
   [⟨"fund1", 107, 0, 0⟩]⟩

/-- Same scenario but with ledger rows netting 100 for the fund. -/
def dataC2 : ClientData := { dataC3 with glRows := [⟨"fund1", 100, 0, 0⟩] }

/-- Full evaluation of the scenario's result object: the merged record doubles
the amounts (appt 214, gl 214), every category matches, status MATCH. -/
theorem checkOutput_dataC3 :
    (checkClientModel ddEx dataC3).1
      = ⟨Status.MATCH,
         [("currentTax", ⟨214, 214, 0, true⟩), ("priorTax", ⟨0, 0, 0, true⟩),
          ("backTax", ⟨0, 0, 0, true⟩), ("miscReceipts", ⟨0, 0, 0, true⟩),
          ("mtgTaxCert", ⟨0, 0, 0, true⟩), ("mtgTax", ⟨0, 0, 0, true⟩)]⟩ := by
  simp [checkClientModel, allMatchOf, comparisonOf, FUND_CATEGORIES, comparisonFor,
    toleranceFor, compareValues, round2, apptTotalsOf, glByFundAltKeyOf,
    computeTaxTotals, getTaxYearStatus, mergeRecords, mergeInto, keyOf, addAmounts,
    classifyStep, yearCategory, glKeyOfCat, taxTagOfCat, penTagOfCat, feeTagOfCat,
    computeMiscTotals, miscDetailStep, tagOfDetail, unitCodeToTag, computeMtgTotals,
    spread_applyE, setT_apply, addT_apply, getT_def, emptyTotals_apply, ddEx, dataC3,
    recEx]
  norm_num [emptyTotals_apply, Option.elim, abs_of_nonneg, abs_of_nonpos]

/-- The result object for the cross-check-100 variant is the same (the ledger
rows feed only the diagnostic cross-check). -/
theorem checkOutput_dataC2 :
    (checkClientModel ddEx dataC2).1
      = ⟨Status.MATCH,
         [("currentTax", ⟨214, 214, 0, true⟩), ("priorTax", ⟨0, 0, 0, true⟩),
          ("backTax", ⟨0, 0, 0, true⟩), ("miscReceipts", ⟨0, 0, 0, true⟩),
          ("mtgTaxCert", ⟨0, 0, 0, true⟩), ("mtgTax", ⟨0, 0, 0, true⟩)]⟩ := by
  have h : (checkClientModel ddEx dataC2).1 = (checkClientModel ddEx dataC3).1 := rfl
  rw [h, checkOutput_dataC3]

/-- In the cross-check-100 variant the diagnostic flag does fire: the
computed GL total 214 differs from the ledger-postings net 100 by 114. -/
theorem glDifferences_dataC2 : (checkClientModel ddEx dataC2).2 = true := by
  simp [checkClientModel, glDifferencesOf, fundIdsOf, getFundMap, FUND_CATEGORIES,
    getGLTotals, glByFundAltKeyOf, computeTaxTotals, getTaxYearStatus, mergeRecords,
    mergeInto, keyOf, addAmounts, classifyStep, yearCategory, glKeyOfCat, taxTagOfCat,
    penTagOfCat, feeTagOfCat, computeMiscTotals, miscDetailStep, computeMtgTotals,
    spread_applyE, setT_apply, addT_apply, getT_def, emptyTotals_apply, List.filterMap,
    ddEx, dataC2, dataC3, recEx]
  norm_num [emptyTotals_apply, Option.elim, abs_of_nonneg, abs_of_nonpos]

/-- C3 counterexample: with the record present on both tax-domain sources the
merge sums them, so the reported `currentTax` apportionment and gl are 214,
not the claimed 107. -/
theorem e2e_match_values_counterexample :
    lookupLabel (checkClientModel ddEx dataC3).1.comparison "currentTax"
      = some ⟨214, 214, 0, true⟩ ∧
    ∀ c, lookupLabel (checkClientModel ddEx dataC3).1.comparison "currentTax" = some c →
      ¬ (c.apportionment = 107 ∧ c.gl = 107) := by
  rw [checkOutput_dataC3]
  refine ⟨rfl, ?_⟩
  intro c hc
  have hc2 : c = ⟨214, 214, 0, true⟩ := by
    simpa [lookupLabel] using hc.symm
  subst hc2
  intro hcontra
  have := hcontra.1
  norm_num at this

/-- C3 amended: in the scenario (record on both sources, cross-check 107) the
`currentTax` category reports apportionment 214, gl 214, diff 0, match true,
and the tenant status is MATCH. -/
theorem e2e_match_amended :
    lookupLabel (checkClientModel ddEx dataC3).1.comparison "currentTax"
      = some ⟨214, 214, 0, true⟩ ∧
    (checkClientModel ddEx dataC3).1.status = Status.MATCH := by
  rw [checkOutput_dataC3]
  exact ⟨rfl, rfl⟩

/-- C2 counterexample: with the GL cross-check total at 100, the `currentTax`
category still reports diff 0 and match true and the tenant status is MATCH
(not MISMATCH), with an empty mismatch detail: the cross-check never feeds
the comparison. -/
theorem e2e_crosscheck_counterexample :
    lookupLabel (checkClientModel ddEx dataC2).1.comparison "currentTax"
      = some ⟨214, 214, 0, true⟩ ∧
    (checkClientModel ddEx dataC2).1.status = Status.MATCH ∧
    (checkClientModel ddEx dataC2).1.status ≠ Status.MISMATCH ∧
    mismatchLabels (checkClientModel ddEx dataC2).1.comparison = [] := by
  rw [checkOutput_dataC2]
  refine ⟨rfl, rfl, by simp, ?_⟩
  simp [mismatchLabels]

/-- C2 amended: in the scenario with cross-check total 100 nothing in the
result changes (diff 0, match true, status MATCH, no mismatch detail); the
drift of 114 is only recorded by the diagnostic cross-check flag. -/
theorem e2e_crosscheck_amended :
    lookupLabel (checkClientModel ddEx dataC2).1.comparison "currentTax"
      = some ⟨214, 214, 0, true⟩ ∧
    (checkClientModel ddEx dataC2).1.status = Status.MATCH ∧
    mismatchLabels (checkClientModel ddEx dataC2).1.comparison = [] ∧
    (checkClientModel ddEx dataC2).2 = true := by
  rw [checkOutput_dataC2]
  exact ⟨rfl, rfl, by simp [mismatchLabels], glDifferences_dataC2⟩

/-! ### Tenant orchestrator (`main`): sequential pass plus one retry pass

`checkClient` performs I/O, so its behaviour is abstracted as an oracle
`Nat → Outcome` giving the outcome of the k-th `checkClient` call of the run
(calls are numbered globally in execution order; the first pass makes calls
`0 .. n-1` and the retry loop continues from `n`).  The payload stands for
the rest of the result object, so wholesale replacement is observable. -/

/-- The outcome of one `checkClient` call: resulting status plus an opaque
payload for the rest of the result object. -/
structure Outcome where
  status : Status
  payload : Nat
  deriving DecidableEq, Repr

/-- One entry of the orchestrator's `results` list. -/
structure TResult where
  client : String
  status : Status
  payload : Nat
  deriving DecidableEq, Repr

/-- Wrap a call outcome as the result object for a client (the result object
always carries the client name it was called with). -/
def mkRes (c : String) (o : Outcome) : TResult := ⟨c, o.status, o.payload⟩

/-- JS `Array.prototype.findIndex` (first index satisfying the predicate). -/
def findIndex {α : Type} (p : α → Bool) : List α → Option Nat
  | [] => none
  | x :: xs => if p x then some 0 else (findIndex p xs).map (· + 1)

/-- JS `results[i] = a` for a valid index. -/
def setAt {α : Type} : List α → Nat → α → List α
  | [], _, _ => []
  | _ :: xs, 0, a => a :: xs
  | x :: xs, n + 1, a => x :: setAt xs n a

/-- The first sequential pass over the tenant list, in input order. -/
def firstPass (oracle : Nat → Outcome) : List String → Nat → List TResult
  | [], _ => []
  | c :: cs, k => mkRes c (oracle k) :: firstPass oracle cs (k + 1)

/-- The retry loop over the snapshot of failed results: each retried tenant's
fresh result replaces the first entry carrying its client name (when found),
and the loop moves on; one retry per failed entry, no more. -/
def retryFold (oracle : Nat → Outcome) :
    List TResult → List TResult → Nat → List TResult
  | [], results, _ => results
  | f :: fs, results, k =>
      let retryResult := mkRes f.client (oracle k)
      let results' :=
        match findIndex (fun r => r.client == f.client) results with
        | some i => setAt results i retryResult
        | none => results
      retryFold oracle fs results' (k + 1)

/-- The whole of `main`'s per-tenant processing: the first pass, then the
retry pass over the entries whose status is ERROR. -/
def mainResults (oracle : Nat → Outcome) (clients : List String) : List TResult :=
  let first := firstPass oracle clients 0
  retryFold oracle (first.filter fun r => r.status == Status.ERROR) first clients.length

/-- Modelled from the claim's words: walking the first-pass results in their
original order, every ERROR entry is replaced wholesale, in place, by the
outcome of one fresh `checkClient` call (consuming the next global call
index), and every other entry is left untouched. -/
def retryExpected (oracle : Nat → Outcome) : List TResult → Nat → List TResult
  | [], _ => []
  | r :: rs, k =>
      if r.status = Status.ERROR then
        mkRes r.client (oracle k) :: retryExpected oracle rs (k + 1)
      else r :: retryExpected oracle rs k

/-- The final results list the retry claim predicts. -/
def expectedFinal (oracle : Nat → Outcome) (clients : List String) : List TResult :=
  retryExpected oracle (firstPass oracle clients 0) clients.length

theorem firstPass_map_client (oracle : Nat → Outcome) :
    ∀ (cs : List String) (k : Nat),
      ((firstPass oracle cs k).map fun r => r.client) = cs := by
  intro cs
  induction cs with
  | nil => intro k; rfl
  | cons c cs ih => intro k; simp [firstPass, mkRes, ih]

theorem findIndex_append_cons {α : Type} (p : α → Bool) (pre : List α) (x : α)
    (xs : List α) (hpre : ∀ y ∈ pre, ¬ p y = true) (hx : p x = true) :
    findIndex p (pre ++ x :: xs) = some pre.length := by
  induction pre with
  | nil => simp [findIndex, hx]
  | cons a pre ih =>
      have ha : ¬ p a = true := hpre a (List.mem_cons_self a pre)
      have ih2 := ih fun y hy => hpre y (List.mem_cons_of_mem a hy)
      show (if p a then some 0 else (findIndex p (pre ++ x :: xs)).map (· + 1))
          = some (pre.length + 1)
      rw [if_neg ha, ih2]
      rfl

theorem setAt_append_cons {α : Type} (pre : List α) (x : α) (xs : List α) (a : α) :
    setAt (pre ++ x :: xs) pre.length a = pre ++ a :: xs := by
  induction pre with
  | nil => rfl
  | cons b pre ih => simp [setAt, ih]

theorem retryFold_eq_expected (oracle : Nat → Outcome) :
    ∀ (res pre : List TResult) (k : Nat),
      (((pre ++ res).map fun r => r.client)).Nodup →
      retryFold oracle (res.filter fun r => r.status == Status.ERROR) (pre ++ res) k
        = pre ++ retryExpected oracle res k := by
  intro res
  induction res with
  | nil => intro pre k _; simp [retryFold, retryExpected]
  | cons r rs ih =>
      intro pre k hnd
      by_cases hr : r.status = Status.ERROR
      · rw [show (r :: rs).filter (fun x => x.status == Status.ERROR)
            = r :: rs.filter (fun x => x.status == Status.ERROR) by
          simp [List.filter_cons, hr]]
        have hpre : ∀ y ∈ pre, ¬ (y.client == r.client) = true := by
          intro y hy hbeq
          have hyc : y.client = r.client := by simpa using hbeq
          have hnd' := hnd
          rw [List.map_append, List.nodup_append] at hnd'
          exact hnd'.2.2 (List.mem_map_of_mem _ hy) (by simp [hyc])
        simp only [retryFold,
          findIndex_append_cons _ pre r rs hpre (by simp), setAt_append_cons]
        have hnd2 : (((pre ++ [mkRes r.client (oracle k)]) ++ rs).map
            fun x => x.client).Nodup := by
          have hsame : ((pre ++ [mkRes r.client (oracle k)]) ++ rs).map
                (fun x => x.client)
              = (pre ++ r :: rs).map fun x => x.client := by
            simp [mkRes]
          rw [hsame]
          exact hnd
        have hrec := ih (pre ++ [mkRes r.client (oracle k)]) (k + 1) hnd2
        rw [show pre ++ mkRes r.client (oracle k) :: rs
            = (pre ++ [mkRes r.client (oracle k)]) ++ rs by simp]
        rw [hrec]
        simp [retryExpected, hr]
      · rw [show (r :: rs).filter (fun x => x.status == Status.ERROR)
            = rs.filter (fun x => x.status == Status.ERROR) by
          simp [List.filter_cons, hr]]
        have hnd2 : (((pre ++ [r]) ++ rs).map fun x => x.client).Nodup := by
          rw [show (pre ++ [r]) ++ rs = pre ++ r :: rs by simp]
          exact hnd
        have hrec := ih (pre ++ [r]) k hnd2
        rw [show pre ++ r :: rs = (pre ++ [r]) ++ rs by simp, hrec]
        simp [retryExpected, hr]

theorem findIndex_setAt_map_client (c : String) (o : Outcome) :
    ∀ (res : List TResult) (i : Nat),
      findIndex (fun r => r.client == c) res = some i →
      ((setAt res i (mkRes c o)).map fun r => r.client)
        = res.map fun r => r.client := by
  intro res
  induction res with
  | nil => intro i h; simp [findIndex] at h
  | cons x xs ih =>
      intro i h
      by_cases hx : (x.client == c) = true
      · have hi : i = 0 := by
          simp [findIndex, hx] at h
          omega
        subst hi
        have hxc : x.client = c := by simpa using hx
        simp [setAt, mkRes, hxc]
      · simp only [findIndex, if_neg hx] at h
        rcases Option.map_eq_some'.mp h with ⟨j, hj, hi⟩
        subst hi
        simp [setAt, ih j hj]

theorem retryFold_map_client (oracle : Nat → Outcome) :
    ∀ (fs res : List TResult) (k : Nat),
      ((retryFold oracle fs res k).map fun r => r.client)
        = res.map fun r => r.client := by
  intro fs
  induction fs with
  | nil => intro res k; rfl
  | cons f fs ih =>
      intro res k
      simp only [retryFold]
      cases hfi : findIndex (fun r => r.client == f.client) res with
      | none =>
          show ((retryFold oracle fs res (k + 1)).map fun r => r.client)
              = res.map fun r => r.client
          exact ih res (k + 1)
      | some i =>
          show ((retryFold oracle fs (setAt res i (mkRes f.client (oracle k)))
              (k + 1)).map fun r => r.client) = res.map fun r => r.client
          rw [ih (setAt res i (mkRes f.client (oracle k))) (k + 1)]
          exact findIndex_setAt_map_client f.client (oracle k) res i hfi

/-- C8 amended: one result is produced per requested tenant, carrying that
tenant's identifier in input order; and provided the requested tenant
identifiers are pairwise distinct, the final list is exactly the first-pass
list with every ERROR entry replaced wholesale, in place and in the original
relative order, by the outcome of exactly one fresh retry call, with no
further retries.  (With duplicate identifiers the in-place replacement can
target the wrong entry; see the counterexample.) -/
theorem retry_pass_spec (oracle : Nat → Outcome) (clients : List String) :
    ((mainResults oracle clients).map fun r => r.client) = clients ∧
    (clients.Nodup → mainResults oracle clients = expectedFinal oracle clients) := by
  constructor
  · unfold mainResults
    rw [retryFold_map_client, firstPass_map_client]
  · intro hnd
    unfold mainResults expectedFinal
    have h0 : ((([] : List TResult) ++ firstPass oracle clients 0).map
        fun r => r.client).Nodup := by
      simpa [firstPass_map_client] using hnd
    simpa using retryFold_eq_expected oracle (firstPass oracle clients 0) [] clients.length h0

/-- The spec's retry run: three tenants, the second one failing on the
first pass (call 1) and succeeding on every later call. -/
def oracleRetry : Nat → Outcome :=
  fun k => if k = 1 then ⟨Status.ERROR, k⟩ else ⟨Status.MATCH, k⟩

/-- Witness for C8 at the spec's three-tenant retry run. -/
theorem retry_pass_spec_witness :
    mainResults oracleRetry ["t1", "t2", "t3"]
      = expectedFinal oracleRetry ["t1", "t2", "t3"] :=
  (retry_pass_spec oracleRetry ["t1", "t2", "t3"]).2 (by decide)

/-- Two tenants sharing a name, both failing the first pass, retries
succeeding. -/
def oracleDup : Nat → Outcome :=
  fun k => if k ≤ 1 then ⟨Status.ERROR, k⟩ else ⟨Status.MATCH, k⟩

/-- C8 counterexample: with duplicate tenant identifiers the retry loop finds
the first entry with that name both times, so the second tenant's ERROR
result is never replaced even though its retry succeeded — the code's final
list differs from the claim's in-place-replacement description. -/
theorem retry_duplicate_counterexample :
    mainResults oracleDup ["a", "a"] ≠ expectedFinal oracleDup ["a", "a"] ∧
    ((mainResults oracleDup ["a", "a"]).map fun r => r.status)
      = [Status.MATCH, Status.ERROR] ∧
    ((expectedFinal oracleDup ["a", "a"]).map fun r => r.status)
      = [Status.MATCH, Status.MATCH] := by
  refine ⟨by decide, by decide, by decide⟩

end Apportionment
